import Mathlib

/-!
Shallow embedding of the analyzer pipeline in `src/yt_analyzer.py`.

Strings are modelled as `List Char` (Python strings are sequences of code
points).  The regular expressions in `extract_video_id` are fixed patterns,
so their `re.search` / `re.match` semantics are embedded directly:

* `(?:v=|\/)([0-9A-Za-z_-]{11}).*` : at each position, the literal `v=` is
  tried first, then `/`, followed by exactly 11 character-class characters;
  the trailing `.*` always succeeds and contributes nothing to group 1.
* `(?:embed\/)([0-9A-Za-z_-]{11})` and `(?:youtu\.be\/)([0-9A-Za-z_-]{11})`
  are plain literals followed by 11 class characters.
* the bare-token check `re.match(r'^[0-9A-Za-z_-]{11}$', url)` anchors at the
  start, and `$` matches at the end of the string or just before a single
  trailing newline (CPython semantics of `$` without `re.MULTILINE`).

`re.search` scans candidate start positions from the left; the first
position at which the pattern matches wins.

Fallible Python code (raising) is embedded with `Option` / explicit result
types.  The two remote collaborators (transcript service, generative text
service) are modelled as oracle inputs to the pipeline function.
-/

namespace YtAnalyzer

/-- Characters of the regex class `[0-9A-Za-z_-]`. -/
def isTokenChar (c : Char) : Bool :=
  ('0' ≤ c && c ≤ '9') || ('A' ≤ c && c ≤ 'Z') || ('a' ≤ c && c ≤ 'z') || c = '_' || c = '-'

/-- Semantics of the regex piece `[0-9A-Za-z_-]{n}`: consume exactly `n`
class characters from the front, failing at the first non-class character
or if the input is too short. -/
def takeClass : Nat → List Char → Option (List Char)
  | 0, _ => some []
  | _ + 1, [] => none
  | n + 1, c :: rest =>
      if isTokenChar c then (takeClass n rest).map (fun g => c :: g) else none

/-- Match a literal character sequence at the front of the input, returning
the remainder. -/
def stripPre : List Char → List Char → Option (List Char)
  | [], s => some s
  | _ :: _, [] => none
  | l :: ls, c :: cs => if c = l then stripPre ls cs else none

/-- The first pattern `(?:v=|\/)([0-9A-Za-z_-]{11}).*` applied at a fixed
position: try the literal `v=` first, then `/`, each followed by the
11-character group.  The trailing `.*` always succeeds. -/
def matchP1At (s : List Char) : Option (List Char) :=
  match (stripPre ['v', '='] s).bind (takeClass 11) with
  | some g => some g
  | none => (stripPre ['/'] s).bind (takeClass 11)

/-- The second pattern `(?:embed\/)([0-9A-Za-z_-]{11})` at a fixed position. -/
def matchP2At (s : List Char) : Option (List Char) :=
  (stripPre ("embed/".toList) s).bind (takeClass 11)

/-- The third pattern `(?:youtu\.be\/)([0-9A-Za-z_-]{11})` at a fixed
position (the `\.` is a literal dot). -/
def matchP3At (s : List Char) : Option (List Char) :=
  (stripPre ("youtu.be/".toList) s).bind (takeClass 11)

/-- Semantics of `re.search`: try the position matcher `m` at every start
position from the left; the first success wins. -/
def searchWith (m : List Char → Option (List Char)) : List Char → Option (List Char)
  | [] => m []
  | c :: rest =>
    match m (c :: rest) with
    | some g => some g
    | none => searchWith m rest

/-- Search of the first pattern, as `re.search` does. -/
def searchP1 (s : List Char) : Option (List Char) :=
  searchWith matchP1At s

/-- Search of the second pattern, as `re.search` does. -/
def searchP2 (s : List Char) : Option (List Char) :=
  searchWith matchP2At s

/-- Search of the third pattern, as `re.search` does. -/
def searchP3 (s : List Char) : Option (List Char) :=
  searchWith matchP3At s

/-- The bare-token shape: exactly 11 characters of the class `[0-9A-Za-z_-]`. -/
def isToken11 (s : List Char) : Bool :=
  s.length == 11 && s.all isTokenChar

/-- Semantics of `re.match(r'^[0-9A-Za-z_-]{11}$', url)`: the whole string is
11 class characters, or — because `$` also matches just before a newline that
ends the string — 11 class characters followed by a single trailing `'\n'`. -/
def bareMatch (s : List Char) : Bool :=
  isToken11 s || (s.getLast? == some '\n' && isToken11 s.dropLast)

/-- Function `extract_video_id` (src/yt_analyzer.py:29-43): try the three patterns in
order with `re.search`; fall back to the bare-token `re.match`; `none`
models the raised `ValueError`.  On the fallback path the function returns
`url` itself, not the matched group. -/
def extract_video_id (url : List Char) : Option (List Char) :=
  match searchP1 url with
  | some g => some g
  | none =>
    match searchP2 url with
    | some g => some g
    | none =>
      match searchP3 url with
      | some g => some g
      | none => if bareMatch url then some url else none

/-- The canonical `watch?v=` URL carrying a token. -/
def watchURL (t : List Char) : List Char :=
  "https://www.youtube.com/watch?v=".toList ++ t

/-- The canonical `embed/` URL carrying a token. -/
def embedURL (t : List Char) : List Char :=
  "https://www.youtube.com/embed/".toList ++ t

/-- The canonical `youtu.be/` short URL carrying a token. -/
def shortURL (t : List Char) : List Char :=
  "https://youtu.be/".toList ++ t

/-- The variant of `extract_video_id` described by claim C10: only the first
pattern is tried, followed by the bare-token fallback. -/
def extract_video_id_variant (url : List Char) : Option (List Char) :=
  match searchP1 url with
  | some g => some g
  | none => if bareMatch url then some url else none

/-- An occurrence of the first pattern somewhere in `s`: a literal `v=` or
`/` immediately followed by 11 class characters. -/
def SiteP1 (s : List Char) : Prop :=
  ∃ t b a, isToken11 t = true ∧
    (s = a ++ 'v' :: '=' :: (t ++ b) ∨ s = a ++ '/' :: (t ++ b))

/-- An occurrence of the second pattern somewhere in `s`: a literal `embed/`
immediately followed by 11 class characters. -/
def SiteP2 (s : List Char) : Prop :=
  ∃ t b a, isToken11 t = true ∧ s = a ++ "embed/".toList ++ (t ++ b)

/-- An occurrence of the third pattern somewhere in `s`: a literal
`youtu.be/` immediately followed by 11 class characters. -/
def SiteP3 (s : List Char) : Prop :=
  ∃ t b a, isToken11 t = true ∧ s = a ++ "youtu.be/".toList ++ (t ++ b)

/-- Whitespace characters recognised by Python bare `str.split()`: exactly
the code points with `str.isspace()` true — U+0009..U+000D, U+001C..U+001F,
the space, NEL (U+0085), NBSP (U+00A0), Ogham space mark (U+1680), the
U+2000..U+200A space block, the line and paragraph separators (U+2028,
U+2029), narrow NBSP (U+202F), medium mathematical space (U+205F) and the
ideographic space (U+3000). -/
def isPySpace (c : Char) : Bool :=
  ('\t' ≤ c && c ≤ '\r') || ('\x1c' ≤ c && c ≤ '\x1f') || c = ' ' ||
    c = '\x85' || c = '\xa0' || c = '\u1680' ||
    ('\u2000' ≤ c && c ≤ '\u200a') ||
    c = '\u2028' || c = '\u2029' || c = '\u202f' || c = '\u205f' || c = '\u3000'

/-- Python `transcript.split()`: maximal runs of non-whitespace characters,
with leading, trailing and repeated whitespace discarded. -/
def pySplit : List Char → List (List Char)
  | [] => []
  | c :: rest =>
    if isPySpace c then pySplit rest
    else
      (c :: rest.takeWhile (fun d => !isPySpace d)) ::
        pySplit (rest.dropWhile (fun d => !isPySpace d))
termination_by s => s.length
decreasing_by
  · simp
  · exact Nat.lt_succ_of_le (List.dropWhile_sublist _).length_le

/-- The stats record returned by `basic_stats`. -/
structure Stats where
  word_count : Nat
  char_count : Nat
  estimated_duration_minutes : Nat

/-- Function `basic_stats` (src/yt_analyzer.py:87-94): `words = transcript.split()`,
then `{len(words), len(transcript), len(words) // 150}`. -/
def basic_stats (transcript : List Char) : Stats :=
  let words := pySplit transcript
  ⟨words.length, transcript.length, words.length / 150⟩

/-- Outcome of the external transcript service call
`YouTubeTranscriptApi().fetch(video_id)`: success with the list of snippet
texts, one of the two distinguished exceptions, or any other failure
carrying its payload. -/
inductive FetchOutcome where
  | success (snippets : List (List Char))
  | transcriptsDisabled
  | noTranscriptFound
  | otherError (e : List Char)

/-- Result of `get_transcript`: the joined transcript, a raised
`Exception(msg)` with a user-facing message, or an exception from the
service propagated unmodified. -/
inductive TranscriptResult where
  | ok (transcript : List Char)
  | raised (msg : List Char)
  | propagated (e : List Char)

/-- The user-facing message for the transcripts-disabled failure. -/
def disabledMsg : List Char :=
  "Transcripts are disabled for this video.".toList

/-- The user-facing message for the no-transcript failure. -/
def noTranscriptMsg : List Char :=
  "No transcript found for this video.".toList

/-- Function `get_transcript` (src/yt_analyzer.py:46-57): join the snippet texts with
single spaces; map `TranscriptsDisabled` and `NoTranscriptFound` to raised
user-facing messages; let every other exception propagate unmodified.  The
function performs a single fetch, with no retry. -/
def get_transcript (r : FetchOutcome) : TranscriptResult :=
  match r with
  | .success snippets => .ok (List.intercalate [' '] snippets)
  | .transcriptsDisabled => .raised disabledMsg
  | .noTranscriptFound => .raised noTranscriptMsg
  | .otherError e => .propagated e

/-- The fixed instructional text of the Gemini prompt before the embedded
transcript (the f-string in src/yt_analyzer.py:67-81 up to the
interpolation). -/
def promptPre : List Char :=
  ("Analyze the following YouTube video transcript and provide:\n\n1. **Summary** (2-3 paragraphs): What is this video about?\n\n2. **Key Points** (bullet list): The main takeaways from the video\n\n3. **Notable Quotes** (if any): Any particularly impactful or memorable statements\n\n4. **Topics Covered** (tags): List the main topics/themes as tags\n\n---\n\nTRANSCRIPT:\n").toList

/-- The fixed text of the Gemini prompt after the embedded transcript (the
rest of the f-string line after the interpolation, plus the final newline). -/
def promptPost : List Char :=
  "  # Limit to avoid token limits\n".toList

/-- The prompt built by `analyze_with_gemini` (src/yt_analyzer.py:60-84):
the fixed template with `transcript[:30000]` interpolated. -/
def gemini_prompt (transcript : List Char) : List Char :=
  promptPre ++ transcript.take 30000 ++ promptPost

/-- Outcome of the external generative-text call
`model.generate_content(prompt)`. -/
inductive GeminiOutcome where
  | ok (text : List Char)
  | err (e : List Char)

/-- Inputs of one run of `main`: the positional argument, the credential
read from the environment (the empty list models an absent key), and the
behaviour of the two external collaborators on this run. -/
structure RunInput where
  url : List Char
  apiKey : List Char
  fetch : FetchOutcome
  gemini : GeminiOutcome

/-- Observable outcome of one run of `main`: the process exit code, the
prompt sent to the summarization collaborator (`none` when it was never
invoked), the analysis-or-raw-transcript body that is displayed, the file
written (name and content), and the error message printed on failure. -/
structure RunResult where
  exitCode : Nat
  sentPrompt : Option (List Char)
  displayedBody : Option (List Char)
  savedFile : Option (List Char × List Char)
  errorMsg : Option (List Char)

/-- The raw-transcript display used when no credential is configured:
`transcript[:2000] + "..." if len(transcript) > 2000 else transcript`. -/
def truncDisplay (t : List Char) : List Char :=
  if 2000 < t.length then t.take 2000 ++ "...".toList else t

/-- The output file name `transcript_{video_id}.txt`. -/
def outFileName (vid : List Char) : List Char :=
  "transcript_".toList ++ vid ++ ".txt".toList

/-- The output file content: the header block followed by the full
transcript (src/yt_analyzer.py:152-157). -/
def outFileContent (vid url : List Char) (wc : Nat) (transcript : List Char) : List Char :=
  "Video ID: ".toList ++ vid ++ ['\n'] ++
    "URL: ".toList ++ url ++ ['\n'] ++
    "Word count: ".toList ++ (Nat.repr wc).toList ++ ['\n'] ++
    List.replicate 60 '=' ++ "\n\n".toList ++ transcript

/-- The message of the `ValueError` raised by `extract_video_id`. -/
def invalidInputMsg (url : List Char) : List Char :=
  "Could not extract video ID from: ".toList ++ url

/-- Function `main` (src/yt_analyzer.py:97-162) as a function of the run inputs:
extract the identifier, fetch the transcript, compute stats, then either
call the summarization collaborator (when a credential is present) or fall
back to the truncated raw-transcript display, and finally write the output
file.  Any raised exception is caught, its message reported, and the
process exits with status 1. -/
def runMain (inp : RunInput) : RunResult :=
  match extract_video_id inp.url with
  | none => ⟨1, none, none, none, some (invalidInputMsg inp.url)⟩
  | some vid =>
    match get_transcript inp.fetch with
    | .raised m => ⟨1, none, none, none, some m⟩
    | .propagated e => ⟨1, none, none, none, some e⟩
    | .ok transcript =>
      let stats := basic_stats transcript
      if inp.apiKey.isEmpty then
        ⟨0, none, some (truncDisplay transcript),
          some (outFileName vid, outFileContent vid inp.url stats.word_count transcript),
          none⟩
      else
        match inp.gemini with
        | .ok text =>
          ⟨0, some (gemini_prompt transcript), some text,
            some (outFileName vid, outFileContent vid inp.url stats.word_count transcript),
            none⟩
        | .err e => ⟨1, some (gemini_prompt transcript), none, none, some e⟩

/-- A transcript of `n` words, each the single letter `a`, separated (and
terminated) by single spaces; used to witness the word-count claims. -/
def repWords : Nat → List Char
  | 0 => []
  | n + 1 => 'a' :: ' ' :: repWords n

theorem isToken11_iff {t : List Char} :
    isToken11 t = true ↔ t.length = 11 ∧ ∀ c ∈ t, isTokenChar c = true := by
  simp [isToken11, List.all_eq_true]

theorem takeClass_all_append (t : List Char) (hall : ∀ c ∈ t, isTokenChar c = true)
    (b : List Char) : takeClass t.length (t ++ b) = some t := by
  induction t with
  | nil => simp [takeClass]
  | cons c cs ih =>
    have hc : isTokenChar c = true := hall c (by simp)
    have ih' := ih (fun d hd => hall d (by simp [hd]))
    simp [takeClass, hc, ih']

theorem takeClass_token_append (t : List Char) (ht : isToken11 t = true) (b : List Char) :
    takeClass 11 (t ++ b) = some t := by
  obtain ⟨hlen, hall⟩ := isToken11_iff.mp ht
  have := takeClass_all_append t hall b
  rwa [hlen] at this

theorem takeClass_some_dest :
    ∀ (n : Nat) (u g : List Char), takeClass n u = some g →
      g.length = n ∧ (∀ c ∈ g, isTokenChar c = true) ∧ ∃ b, u = g ++ b := by
  intro n
  induction n with
  | zero =>
    intro u g h
    simp [takeClass] at h
    subst h
    exact ⟨rfl, by simp, u, rfl⟩
  | succ n ih =>
    intro u g h
    cases u with
    | nil => simp [takeClass] at h
    | cons c cs =>
      simp only [takeClass] at h
      by_cases hc : isTokenChar c = true
      · rw [if_pos hc] at h
        obtain ⟨g', hg', rfl⟩ := Option.map_eq_some'.mp h
        obtain ⟨hlen, hall, b, hb⟩ := ih cs g' hg'
        refine ⟨by simp [hlen], ?_, b, by simp [hb]⟩
        intro d hd
        rcases List.mem_cons.mp hd with h' | h'
        · exact h' ▸ hc
        · exact hall d h'
      · rw [if_neg hc] at h
        cases h

theorem stripPre_some_dest :
    ∀ (lit s u : List Char), stripPre lit s = some u → s = lit ++ u := by
  intro lit
  induction lit with
  | nil =>
    intro s u h
    simp [stripPre] at h
    simp [h]
  | cons l ls ih =>
    intro s u h
    cases s with
    | nil => simp [stripPre] at h
    | cons c cs =>
      simp only [stripPre] at h
      by_cases hc : c = l
      · rw [if_pos hc] at h
        subst hc
        simpa using ih cs u h
      · rw [if_neg hc] at h
        cases h

theorem stripPre_append : ∀ (lit u : List Char), stripPre lit (lit ++ u) = some u := by
  intro lit u
  induction lit with
  | nil => simp [stripPre]
  | cons l ls ih => simp [stripPre, ih]

theorem matchP1At_vEq {t : List Char} (ht : isToken11 t = true) (b : List Char) :
    matchP1At ('v' :: '=' :: (t ++ b)) = some t := by
  have h := takeClass_token_append t ht b
  simp [matchP1At, stripPre, h]

theorem matchP1At_slash {t : List Char} (ht : isToken11 t = true) (b : List Char) :
    matchP1At ('/' :: (t ++ b)) = some t := by
  have h := takeClass_token_append t ht b
  simp [matchP1At, stripPre, h]

theorem matchP1At_some_dest {u g : List Char} (h : matchP1At u = some g) :
    isToken11 g = true ∧ ∃ b, u = 'v' :: '=' :: (g ++ b) ∨ u = '/' :: (g ++ b) := by
  unfold matchP1At at h
  cases h1 : (stripPre ['v', '='] u).bind (takeClass 11) with
  | some g' =>
    rw [h1] at h
    have hgg : g' = g := by simpa using h
    rw [hgg] at h1
    obtain ⟨w, hw, hg⟩ := Option.bind_eq_some.mp h1
    obtain ⟨hlen, hall, b, hb⟩ := takeClass_some_dest 11 w g hg
    have hu := stripPre_some_dest _ _ _ hw
    exact ⟨isToken11_iff.mpr ⟨hlen, hall⟩, b, Or.inl (by simp [hu, hb])⟩
  | none =>
    rw [h1] at h
    simp only at h
    obtain ⟨w, hw, hg⟩ := Option.bind_eq_some.mp h
    obtain ⟨hlen, hall, b, hb⟩ := takeClass_some_dest 11 w g hg
    have hu := stripPre_some_dest _ _ _ hw
    exact ⟨isToken11_iff.mpr ⟨hlen, hall⟩, b, Or.inr (by simp [hu, hb])⟩

theorem matchP2At_here {t : List Char} (ht : isToken11 t = true) (b : List Char) :
    matchP2At ("embed/".toList ++ (t ++ b)) = some t := by
  simp [matchP2At, stripPre, takeClass_token_append t ht b]

theorem matchP2At_some_dest {u g : List Char} (h : matchP2At u = some g) :
    isToken11 g = true ∧ ∃ b, u = "embed/".toList ++ (g ++ b) := by
  obtain ⟨w, hw, hg⟩ := Option.bind_eq_some.mp h
  obtain ⟨hlen, hall, b, hb⟩ := takeClass_some_dest 11 w g hg
  have hu := stripPre_some_dest _ _ _ hw
  exact ⟨isToken11_iff.mpr ⟨hlen, hall⟩, b, by simp [hu, hb]⟩

theorem matchP3At_here {t : List Char} (ht : isToken11 t = true) (b : List Char) :
    matchP3At ("youtu.be/".toList ++ (t ++ b)) = some t := by
  simp [matchP3At, stripPre, takeClass_token_append t ht b]

theorem matchP3At_some_dest {u g : List Char} (h : matchP3At u = some g) :
    isToken11 g = true ∧ ∃ b, u = "youtu.be/".toList ++ (g ++ b) := by
  obtain ⟨w, hw, hg⟩ := Option.bind_eq_some.mp h
  obtain ⟨hlen, hall, b, hb⟩ := takeClass_some_dest 11 w g hg
  have hu := stripPre_some_dest _ _ _ hw
  exact ⟨isToken11_iff.mpr ⟨hlen, hall⟩, b, by simp [hu, hb]⟩

theorem searchWith_some_dest {m : List Char → Option (List Char)} :
    ∀ {s g : List Char}, searchWith m s = some g → ∃ a u, s = a ++ u ∧ m u = some g := by
  intro s
  induction s with
  | nil =>
    intro g h
    exact ⟨[], [], rfl, by simpa [searchWith] using h⟩
  | cons c cs ih =>
    intro g h
    cases hm : m (c :: cs) with
    | some g' =>
      simp only [searchWith, hm] at h
      exact ⟨[], c :: cs, rfl, by rw [hm, h]⟩
    | none =>
      simp only [searchWith, hm] at h
      obtain ⟨a, u, hau, hu⟩ := ih h
      exact ⟨c :: a, u, by simp [hau], hu⟩

theorem searchWith_isSome_self {m : List Char → Option (List Char)} {u g : List Char}
    (h : m u = some g) : (searchWith m u).isSome = true := by
  cases u with
  | nil => simp [searchWith, h]
  | cons c cs => simp [searchWith, h]

theorem searchWith_isSome_append {m : List Char → Option (List Char)} (a : List Char)
    {u : List Char} (h : (searchWith m u).isSome = true) :
    (searchWith m (a ++ u)).isSome = true := by
  induction a with
  | nil => simpa using h
  | cons c a ih =>
    rw [List.cons_append]
    cases hm : m (c :: (a ++ u)) with
    | some g => simp [searchWith, hm]
    | none =>
      simp only [searchWith, hm]
      exact ih

theorem searchP1_isSome_iff {s : List Char} : (searchP1 s).isSome = true ↔ SiteP1 s := by
  constructor
  · intro h
    obtain ⟨g, hg⟩ := Option.isSome_iff_exists.mp h
    rw [searchP1] at hg
    obtain ⟨a, u, rfl, hu⟩ := searchWith_some_dest hg
    obtain ⟨htok, b, hb⟩ := matchP1At_some_dest hu
    refine ⟨g, b, a, htok, ?_⟩
    cases hb with
    | inl h' => exact Or.inl (by rw [h'])
    | inr h' => exact Or.inr (by rw [h'])
  · rintro ⟨t, b, a, htok, hs | hs⟩ <;> subst hs <;> rw [searchP1]
    · exact searchWith_isSome_append a (searchWith_isSome_self (matchP1At_vEq htok b))
    · exact searchWith_isSome_append a (searchWith_isSome_self (matchP1At_slash htok b))

theorem searchP2_isSome_iff {s : List Char} : (searchP2 s).isSome = true ↔ SiteP2 s := by
  constructor
  · intro h
    obtain ⟨g, hg⟩ := Option.isSome_iff_exists.mp h
    rw [searchP2] at hg
    obtain ⟨a, u, rfl, hu⟩ := searchWith_some_dest hg
    obtain ⟨htok, b, hb⟩ := matchP2At_some_dest hu
    exact ⟨g, b, a, htok, by rw [hb, List.append_assoc]⟩
  · rintro ⟨t, b, a, htok, hs⟩
    subst hs
    rw [searchP2]
    rw [List.append_assoc]
    exact searchWith_isSome_append a (searchWith_isSome_self (matchP2At_here htok b))

theorem searchP3_isSome_iff {s : List Char} : (searchP3 s).isSome = true ↔ SiteP3 s := by
  constructor
  · intro h
    obtain ⟨g, hg⟩ := Option.isSome_iff_exists.mp h
    rw [searchP3] at hg
    obtain ⟨a, u, rfl, hu⟩ := searchWith_some_dest hg
    obtain ⟨htok, b, hb⟩ := matchP3At_some_dest hu
    exact ⟨g, b, a, htok, by rw [hb, List.append_assoc]⟩
  · rintro ⟨t, b, a, htok, hs⟩
    subst hs
    rw [searchP3]
    rw [List.append_assoc]
    exact searchWith_isSome_append a (searchWith_isSome_self (matchP3At_here htok b))

theorem siteP1_of_siteP2 {s : List Char} (h : SiteP2 s) : SiteP1 s := by
  obtain ⟨t, b, a, htok, hs⟩ := h
  refine ⟨t, b, a ++ "embed".toList, htok, Or.inr ?_⟩
  rw [hs]
  simp

theorem siteP1_of_siteP3 {s : List Char} (h : SiteP3 s) : SiteP1 s := by
  obtain ⟨t, b, a, htok, hs⟩ := h
  refine ⟨t, b, a ++ "youtu.be".toList, htok, Or.inr ?_⟩
  rw [hs]
  simp

theorem searchP2_none_of_searchP1_none {s : List Char} (h : searchP1 s = none) :
    searchP2 s = none := by
  cases h2 : searchP2 s with
  | none => rfl
  | some g =>
    have hsite : SiteP2 s := searchP2_isSome_iff.mp (by simp [h2])
    have := searchP1_isSome_iff.mpr (siteP1_of_siteP2 hsite)
    rw [h] at this
    cases this

theorem searchP3_none_of_searchP1_none {s : List Char} (h : searchP1 s = none) :
    searchP3 s = none := by
  cases h3 : searchP3 s with
  | none => rfl
  | some g =>
    have hsite : SiteP3 s := searchP3_isSome_iff.mp (by simp [h3])
    have := searchP1_isSome_iff.mpr (siteP1_of_siteP3 hsite)
    rw [h] at this
    cases this

theorem extract_of_searchP1 {s g : List Char} (h : searchP1 s = some g) :
    extract_video_id s = some g := by
  simp [extract_video_id, h]

theorem extract_of_bare {s : List Char} (h1 : searchP1 s = none) (hb : bareMatch s = true) :
    extract_video_id s = some s := by
  have h2 := searchP2_none_of_searchP1_none h1
  have h3 := searchP3_none_of_searchP1_none h1
  simp [extract_video_id, h1, h2, h3, hb]

theorem token_of_searchP1 {s g : List Char} (h : searchP1 s = some g) :
    isToken11 g = true := by
  rw [searchP1] at h
  obtain ⟨a, u, rfl, hu⟩ := searchWith_some_dest h
  exact (matchP1At_some_dest hu).1

theorem token_of_searchP2 {s g : List Char} (h : searchP2 s = some g) :
    isToken11 g = true := by
  rw [searchP2] at h
  obtain ⟨a, u, rfl, hu⟩ := searchWith_some_dest h
  exact (matchP2At_some_dest hu).1

theorem token_of_searchP3 {s g : List Char} (h : searchP3 s = some g) :
    isToken11 g = true := by
  rw [searchP3] at h
  obtain ⟨a, u, rfl, hu⟩ := searchWith_some_dest h
  exact (matchP3At_some_dest hu).1

theorem not_siteP1_of_all_class {s : List Char}
    (hall : ∀ c ∈ s, isTokenChar c = true) : ¬SiteP1 s := by
  rintro ⟨t, b, a, htok, hs | hs⟩
  · have hmem : '=' ∈ s := by rw [hs]; simp
    have := hall '=' hmem
    simp [isTokenChar] at this
  · have hmem : '/' ∈ s := by rw [hs]; simp
    have := hall '/' hmem
    simp [isTokenChar] at this

theorem searchP1_none_of_all_class {s : List Char}
    (hall : ∀ c ∈ s, isTokenChar c = true) : searchP1 s = none := by
  cases h : searchP1 s with
  | none => rfl
  | some g =>
    exact absurd (searchP1_isSome_iff.mp (by simp [h])) (not_siteP1_of_all_class hall)

theorem bareMatch_of_token {t : List Char} (ht : isToken11 t = true) :
    bareMatch t = true := by
  simp [bareMatch, ht]

/-- Claim C1: for every fixed 11-character token `t` matching
`[0-9A-Za-z_-]{11}`, identifier extraction applied to each of the four
supported input shapes — the `watch?v=` URL carrying `t`, the `embed/` URL
carrying `t`, the `youtu.be/` URL carrying `t`, and the bare token `t`
itself — returns the same token `t`. -/
theorem extract_video_id_four_shapes (t : List Char) (ht : isToken11 t = true) :
    extract_video_id (watchURL t) = some t ∧ extract_video_id (embedURL t) = some t ∧
      extract_video_id (shortURL t) = some t ∧ extract_video_id t = some t := by
  have h11 : takeClass 11 t = some t := by
    simpa using takeClass_token_append t ht []
  refine ⟨?_, ?_, ?_, ?_⟩
  · apply extract_of_searchP1
    simp [watchURL, searchP1, searchWith, matchP1At, stripPre, takeClass, isTokenChar, h11]
  · apply extract_of_searchP1
    simp [embedURL, searchP1, searchWith, matchP1At, stripPre, takeClass, isTokenChar, h11]
  · apply extract_of_searchP1
    simp [shortURL, searchP1, searchWith, matchP1At, stripPre, takeClass, isTokenChar, h11]
  · have hall : ∀ c ∈ t, isTokenChar c = true := (isToken11_iff.mp ht).2
    exact extract_of_bare (searchP1_none_of_all_class hall) (bareMatch_of_token ht)

/-- Witness for claim C1 at the token `dQw4w9WgXcQ`. -/
theorem extract_video_id_four_shapes_witness :
    extract_video_id (watchURL (("dQw4w9WgXcQ").toList)) = some (("dQw4w9WgXcQ").toList) ∧
      extract_video_id (embedURL (("dQw4w9WgXcQ").toList)) = some (("dQw4w9WgXcQ").toList) ∧
      extract_video_id (shortURL (("dQw4w9WgXcQ").toList)) = some (("dQw4w9WgXcQ").toList) ∧
      extract_video_id (("dQw4w9WgXcQ").toList) = some (("dQw4w9WgXcQ").toList) :=
  extract_video_id_four_shapes (("dQw4w9WgXcQ").toList) (by decide)

/-- Claim C10: the second and third extraction patterns are redundant — for
every input string, `extract_video_id` returns exactly the same result as
the variant that tries only the first pattern followed by the bare-token
fallback, because every match of the embed or short-link pattern contains a
`/` immediately followed by the same 11-character group, hence a match of
the first pattern. -/
theorem extract_variant_equivalent (s : List Char) :
    extract_video_id s = extract_video_id_variant s := by
  cases h1 : searchP1 s with
  | some g => simp [extract_video_id, extract_video_id_variant, h1]
  | none =>
    have h2 := searchP2_none_of_searchP1_none h1
    have h3 := searchP3_none_of_searchP1_none h1
    simp [extract_video_id, extract_video_id_variant, h1, h2, h3]

/-- Counterexample to claim C6 as stated: on the 12-character input
consisting of 11 class characters followed by a newline, extraction
returns successfully, but the returned string is not 11 characters long
(the bare-token `re.match` accepts it because `$` matches before a trailing
newline, and the code then returns `url` itself). -/
theorem extract_result_shape_cex :
    extract_video_id (("abcdefghijk\n").toList) = some (("abcdefghijk\n").toList) ∧
      (("abcdefghijk\n").toList).length ≠ 11 := by
  constructor
  · decide
  · decide

/-- Claim C6 (amended): whenever identifier extraction returns successfully,
the returned string either matches `[0-9A-Za-z_-]{11}`, or — on the
bare-token fallback path only — it is the input itself, an 11-character
class token followed by a single trailing newline. -/
theorem extract_result_shape (s g : List Char) (h : extract_video_id s = some g) :
    isToken11 g = true ∨
      (g = s ∧ s.getLast? = some '\n' ∧ isToken11 s.dropLast = true) := by
  cases h1 : searchP1 s with
  | some g' =>
    simp only [extract_video_id, h1, Option.some.injEq] at h
    exact Or.inl (h ▸ token_of_searchP1 h1)
  | none =>
    cases h2 : searchP2 s with
    | some g' =>
      simp only [extract_video_id, h1, h2, Option.some.injEq] at h
      exact Or.inl (h ▸ token_of_searchP2 h2)
    | none =>
      cases h3 : searchP3 s with
      | some g' =>
        simp only [extract_video_id, h1, h2, h3, Option.some.injEq] at h
        exact Or.inl (h ▸ token_of_searchP3 h3)
      | none =>
        simp only [extract_video_id, h1, h2, h3] at h
        by_cases hb : bareMatch s = true
        · rw [if_pos hb] at h
          obtain rfl : s = g := by simpa using h
          rcases (by simpa [bareMatch] using hb :
              isToken11 s = true ∨ s.getLast? = some '\n' ∧ isToken11 s.dropLast = true) with
            h' | ⟨hl, hd⟩
          · exact Or.inl h'
          · exact Or.inr ⟨rfl, hl, hd⟩
        · rw [if_neg hb] at h
          cases h

/-- Witness for claim C6 (amended) at the bare token `dQw4w9WgXcQ`. -/
theorem extract_result_shape_witness :
    isToken11 (("dQw4w9WgXcQ").toList) = true ∨
      ((("dQw4w9WgXcQ").toList) = (("dQw4w9WgXcQ").toList) ∧
        (("dQw4w9WgXcQ").toList).getLast? = some '\n' ∧
        isToken11 ((("dQw4w9WgXcQ").toList)).dropLast = true) :=
  extract_result_shape (("dQw4w9WgXcQ").toList) (("dQw4w9WgXcQ").toList) (by decide)

/-- Counterexample to claim C5 as stated: the input of 11 class characters
followed by a newline matches none of the three URL patterns and is not
itself of the bare 11-character token shape, yet extraction returns a value
instead of raising. -/
theorem extract_raises_cex :
    ¬SiteP1 (("abcdefghijk\n").toList) ∧ ¬SiteP2 (("abcdefghijk\n").toList) ∧
      ¬SiteP3 (("abcdefghijk\n").toList) ∧ isToken11 (("abcdefghijk\n").toList) = false ∧
      extract_video_id (("abcdefghijk\n").toList) ≠ none := by
  refine ⟨fun hs => absurd (searchP1_isSome_iff.mpr hs) (by decide),
    fun hs => absurd (searchP2_isSome_iff.mpr hs) (by decide),
    fun hs => absurd (searchP3_isSome_iff.mpr hs) (by decide),
    by decide, by decide⟩

/-- Claim C5 (amended): for every input string that matches none of the
three URL patterns, is not itself the bare 11-character token shape, and is
not such a token followed by a single trailing newline (the `$`-before-final-
newline case of the bare-token `re.match`), identifier extraction raises an
invalid-input error rather than returning a value. -/
theorem extract_raises_when_nothing_matches (s : List Char)
    (h1 : ¬SiteP1 s) (h2 : ¬SiteP2 s) (h3 : ¬SiteP3 s)
    (h4 : isToken11 s = false)
    (h5 : s.getLast? = some '\n' → isToken11 s.dropLast = false) :
    extract_video_id s = none := by
  have hn1 : searchP1 s = none := by
    cases h : searchP1 s with
    | none => rfl
    | some g => exact absurd (searchP1_isSome_iff.mp (by simp [h])) h1
  have hn2 : searchP2 s = none := searchP2_none_of_searchP1_none hn1
  have hn3 : searchP3 s = none := searchP3_none_of_searchP1_none hn1
  have hb : bareMatch s = false := by
    rw [bareMatch, h4]
    simp only [Bool.false_or]
    by_cases hl : s.getLast? = some '\n'
    · simp [hl, h5 hl]
    · simp [hl]
  simp [extract_video_id, hn1, hn2, hn3, hb]

/-- Witness for claim C5 (amended) at the input `hello`. -/
theorem extract_raises_when_nothing_matches_witness :
    extract_video_id (("hello").toList) = none :=
  extract_raises_when_nothing_matches (("hello").toList)
    (fun hs => absurd (searchP1_isSome_iff.mpr hs) (by decide))
    (fun hs => absurd (searchP2_isSome_iff.mpr hs) (by decide))
    (fun hs => absurd (searchP3_isSome_iff.mpr hs) (by decide))
    (by decide) (by decide)

/-- Claim C9: identifier extraction succeeds on inputs outside the four
supported shapes — whenever the input contains `v=` or `/` immediately
followed by 11 class characters, extraction returns an 11-character class
token standing immediately after such a marker (the leftmost match), rather
than raising; in particular on the non-YouTube URL
`https://example.com/abcdefghijk` it returns `abcdefghijk`. -/
theorem extract_nonyoutube_site :
    (∀ s : List Char, SiteP1 s →
      ∃ g, extract_video_id s = some g ∧ isToken11 g = true ∧
        ∃ a b, s = a ++ 'v' :: '=' :: (g ++ b) ∨ s = a ++ '/' :: (g ++ b)) ∧
      extract_video_id (("https://example.com/abcdefghijk").toList) =
        some (("abcdefghijk").toList) := by
  constructor
  · intro s h
    have hsome := searchP1_isSome_iff.mpr h
    obtain ⟨g, hg⟩ := Option.isSome_iff_exists.mp hsome
    refine ⟨g, extract_of_searchP1 hg, token_of_searchP1 hg, ?_⟩
    rw [searchP1] at hg
    obtain ⟨a, u, rfl, hu⟩ := searchWith_some_dest hg
    obtain ⟨-, b, hb⟩ := matchP1At_some_dest hu
    refine ⟨a, b, ?_⟩
    cases hb with
    | inl h' => exact Or.inl (by rw [h'])
    | inr h' => exact Or.inr (by rw [h'])
  · decide

/-- Witness for claim C9 at the input `/abcdefghijk`. -/
theorem extract_nonyoutube_site_witness :
    ∃ g, extract_video_id ('/' :: ("abcdefghijk").toList) = some g ∧
      isToken11 g = true ∧
      ∃ a b, '/' :: ("abcdefghijk").toList = a ++ 'v' :: '=' :: (g ++ b) ∨
        '/' :: ("abcdefghijk").toList = a ++ '/' :: (g ++ b) :=
  extract_nonyoutube_site.1 ('/' :: ("abcdefghijk").toList)
    ⟨("abcdefghijk").toList, [], [], by decide, Or.inr rfl⟩

set_option maxHeartbeats 2000000 in
theorem pySplit_repWords : ∀ n : Nat, pySplit (repWords n) = List.replicate n ['a'] := by
  intro n
  induction n with
  | zero => simp [repWords, pySplit]
  | succ n ih =>
    rw [repWords]
    rw [pySplit]
    simp [isPySpace, List.takeWhile_cons, List.dropWhile_cons]
    rw [pySplit]
    simpa [isPySpace, List.replicate_succ] using ih

theorem length_pySplit_repWords (n : Nat) : (pySplit (repWords n)).length = n := by
  simp [pySplit_repWords]

set_option maxHeartbeats 2000000 in
theorem pySplit_tokens (s : List Char) :
    ∀ w ∈ pySplit s, w ≠ [] ∧ ∀ c ∈ w, isPySpace c = false := by
  induction s using pySplit.induct with
  | case1 => simp [pySplit]
  | case2 c rest hsp ih =>
    intro w hw
    rw [pySplit, if_pos hsp] at hw
    exact ih w hw
  | case3 c rest hsp ih =>
    intro w hw
    rw [pySplit, if_neg hsp] at hw
    rcases List.mem_cons.mp hw with rfl | hw'
    · refine ⟨by simp, ?_⟩
      intro d hd
      rcases List.mem_cons.mp hd with rfl | hd'
      · simpa using hsp
      · have := List.mem_takeWhile_imp hd'
        simpa using this
    · exact ih w hw'

/-- Claim C2: for every transcript string, the `estimated_duration_minutes`
field of the stats record equals the whitespace-token count floor-divided by
150; in particular 299 words yield 1 minute and 300 words yield 2 minutes. -/
theorem basic_stats_duration_floor_div (t : List Char) :
    (basic_stats t).estimated_duration_minutes = (pySplit t).length / 150 ∧
      ((pySplit t).length = 299 → (basic_stats t).estimated_duration_minutes = 1) ∧
      ((pySplit t).length = 300 → (basic_stats t).estimated_duration_minutes = 2) := by
  refine ⟨rfl, ?_, ?_⟩
  · intro h
    simp [basic_stats, h]
  · intro h
    simp [basic_stats, h]

/-- Witness for claim C2 at transcripts of exactly 299 and exactly 300
single-letter words. -/
theorem basic_stats_duration_floor_div_witness :
    (basic_stats (repWords 299)).estimated_duration_minutes = 1 ∧
      (basic_stats (repWords 300)).estimated_duration_minutes = 2 :=
  ⟨(basic_stats_duration_floor_div (repWords 299)).2.1 (length_pySplit_repWords 299),
    (basic_stats_duration_floor_div (repWords 300)).2.2 (length_pySplit_repWords 300)⟩

/-- Claim C3: the statistics computation is a pure, deterministic function
of the transcript string — `word_count` is the number of whitespace-
separated tokens (each token nonempty and whitespace-free), `char_count` is
the length of the string, equal inputs give identical records, and the
empty transcript yields the all-zero record. -/
theorem basic_stats_pure_and_counts (t u : List Char) :
    (basic_stats t).word_count = (pySplit t).length ∧
      (basic_stats t).char_count = t.length ∧
      (∀ w ∈ pySplit t, w ≠ [] ∧ ∀ c ∈ w, isPySpace c = false) ∧
      (t = u → basic_stats t = basic_stats u) ∧
      basic_stats [] = ⟨0, 0, 0⟩ := by
  refine ⟨rfl, rfl, pySplit_tokens t, fun h => by rw [h], ?_⟩
  simp [basic_stats, pySplit]

/-- Witness for claim C3: determinism applied at a concrete transcript. -/
theorem basic_stats_pure_and_counts_witness :
    basic_stats (("a b").toList) = basic_stats (("a b").toList) :=
  (basic_stats_pure_and_counts (("a b").toList) (("a b").toList)).2.2.2.1 rfl

/-- Claim C4: transcript retrieval maps the transcripts-disabled failure and
the no-transcript failure to the two distinct user-facing messages, and
every other failure raised by the transcript service propagates unmodified;
the function performs one fetch with no retry. -/
theorem get_transcript_error_mapping :
    get_transcript FetchOutcome.transcriptsDisabled = TranscriptResult.raised disabledMsg ∧
      get_transcript FetchOutcome.noTranscriptFound = TranscriptResult.raised noTranscriptMsg ∧
      disabledMsg ≠ noTranscriptMsg ∧
      ∀ e, get_transcript (FetchOutcome.otherError e) = TranscriptResult.propagated e := by
  refine ⟨rfl, rfl, by decide, fun e => rfl⟩

/-- Witness for claim C4: an arbitrary other failure propagates unmodified. -/
theorem get_transcript_error_mapping_witness :
    get_transcript (FetchOutcome.otherError (("boom").toList)) =
      TranscriptResult.propagated (("boom").toList) :=
  get_transcript_error_mapping.2.2.2 (("boom").toList)

/-- Claim C7: when no credential is configured, the pipeline never sends a
prompt to the summarization collaborator, and on runs where extraction and
transcript retrieval succeed it completes with exit code 0, displays the
raw transcript truncated for display, and writes the output file. -/
theorem pipeline_no_key_skips_gemini (inp : RunInput) (hk : inp.apiKey = []) :
    (runMain inp).sentPrompt = none ∧
      ∀ vid tr, extract_video_id inp.url = some vid →
        get_transcript inp.fetch = TranscriptResult.ok tr →
        (runMain inp).exitCode = 0 ∧
        (runMain inp).displayedBody = some (truncDisplay tr) ∧
        (runMain inp).savedFile =
          some (outFileName vid, outFileContent vid inp.url (basic_stats tr).word_count tr) := by
  have hke : inp.apiKey.isEmpty = true := by simp [hk]
  cases he : extract_video_id inp.url with
  | none =>
    refine ⟨by simp [runMain, he], ?_⟩
    intro vid tr hvid htr
    cases hvid
  | some vid0 =>
    cases hf : get_transcript inp.fetch with
    | raised m =>
      refine ⟨by simp [runMain, he, hf], ?_⟩
      intro vid tr hvid htr
      cases htr
    | propagated e =>
      refine ⟨by simp [runMain, he, hf], ?_⟩
      intro vid tr hvid htr
      cases htr
    | ok tr0 =>
      refine ⟨by simp [runMain, he, hf, hke], ?_⟩
      intro vid tr hvid htr
      obtain rfl : vid0 = vid := by simpa using hvid
      obtain rfl : tr0 = tr := by simpa using htr
      exact ⟨by simp [runMain, he, hf, hke], by simp [runMain, he, hf, hke],
        by simp [runMain, he, hf, hke]⟩

/-- Witness for claim C7 at a concrete run with no credential. -/
theorem pipeline_no_key_skips_gemini_witness :
    (runMain (RunInput.mk (("dQw4w9WgXcQ").toList) []
      (FetchOutcome.success [("hi").toList]) (GeminiOutcome.ok []))).sentPrompt = none :=
  (pipeline_no_key_skips_gemini
    (RunInput.mk (("dQw4w9WgXcQ").toList) []
      (FetchOutcome.success [("hi").toList]) (GeminiOutcome.ok [])) rfl).1

/-- Claim C8: the transcript text embedded in the prompt sent to the
summarization service is exactly the first 30000 characters of the
transcript — the whole transcript when it is at most 30000 characters —
so the prompt never embeds more than 30000 transcript characters. -/
theorem gemini_prompt_truncation (t : List Char) :
    gemini_prompt t = promptPre ++ t.take 30000 ++ promptPost ∧
      (t.take 30000).length ≤ 30000 ∧
      (t.length ≤ 30000 → gemini_prompt t = promptPre ++ t ++ promptPost) := by
  refine ⟨rfl, ?_, ?_⟩
  · simp [List.length_take]
  · intro h
    rw [gemini_prompt, List.take_of_length_le h]

/-- Witness for claim C8 at a one-character transcript. -/
theorem gemini_prompt_truncation_witness :
    gemini_prompt ['a'] = promptPre ++ ['a'] ++ promptPost :=
  (gemini_prompt_truncation ['a']).2.2 (by simp)

end YtAnalyzer
